import Mathlib

/-!
Verification of the yjemail backend against its specification.

Shallow embedding conventions:
* Text is modelled as `List Char`; Python strings map to character lists.
* Timestamps are modelled as natural numbers (seconds); the ISO-8601 /
  "YYYY-MM-DD HH:MM:SS" formatting and parsing layers of the source are
  abstracted into this single numeric representation.
* The symmetric cipher (cryptography.fernet.Fernet) is modelled as an
  abstract pair of functions: an encoder that may fail and a decoder that
  may fail; theorems take the cipher's contract (round trip, ciphertext
  magic prefix) as hypotheses, and a concrete executable instance is used
  in witnesses.
* Network calls are modelled by oracles: the provider's responses are
  inputs to the embedded functions, and the requests the code would issue
  are recorded in explicit event lists.
* The database module (backend/database) is not part of the provided
  sources; operations on it are modelled from the specification and are
  marked `Modelled from the spec:` in their doc comments.
-/

/-! ## CryptoVault (backend/utils/crypto.py) -/

-- Fernet ciphertexts start with this prefix (version byte 0x80, base64url);
-- crypto.py line 65 keys `is_encrypted` on it.
def FERNET_MAGIC : List Char := (("gAAAAA").data)

/-- encrypt (crypto.py lines 37-47): empty input is returned unchanged; a
cipher failure (the `except` branch) returns the plaintext itself. The
cipher is the abstract parameter `enc`. -/
def encrypt (enc : List Char → Option (List Char)) (plaintext : List Char) : List Char :=
  if plaintext = [] then plaintext
  else
    match enc plaintext with
    | some c => c
    | none => plaintext

/-- decrypt (crypto.py lines 49-59): empty input is returned unchanged; a
decode failure (the `except` branch) returns the input unchanged. -/
def decrypt (dec : List Char → Option (List Char)) (ciphertext : List Char) : List Char :=
  if ciphertext = [] then ciphertext
  else
    match dec ciphertext with
    | some p => p
    | none => ciphertext

/-- is_encrypted (crypto.py lines 61-65): false on empty input, otherwise
tests for the Fernet magic prefix. -/
def is_encrypted (text : List Char) : Bool :=
  if text = [] then false else FERNET_MAGIC.isPrefixOf text

-- Concrete executable cipher instance satisfying Fernet's contract, used
-- by witnesses: encoding prepends the magic prefix, decoding strips it.
def encToy (s : List Char) : Option (List Char) := some (FERNET_MAGIC ++ s)

def decToy (t : List Char) : Option (List Char) :=
  if FERNET_MAGIC.isPrefixOf t then some (t.drop 6) else none

/-! ## GraphClient request building (backend/utils/email/graph_api.py) -/

/-- Query parameters of a Graph message-list request as built by
get_messages (graph_api.py lines 66-95). The filter field holds the
receivedDateTime lower bound when a since value was supplied. -/
structure GraphListParams where
  folder : List Char
  top : Nat
  orderby : List Char
  select : List Char
  filter : Option Nat
deriving DecidableEq

/-- get_messages query construction (graph_api.py lines 66-95): $top,
$orderby and $select are always present; $filter=receivedDateTime ge ...
is added exactly when a since value is supplied. -/
def get_messages_params (folder : List Char) (limit : Nat) (since : Option Nat) :
    GraphListParams :=
  { folder := folder
    top := limit
    orderby := (("receivedDateTime desc").data)
    select := (("id,subject,from,receivedDateTime,body,hasAttachments,bodyPreview").data)
    filter := since }

/-- check_mail first-sync detection (graph_api.py lines 299-320): with zero
stored messages the since filter is dropped; otherwise the mailbox's
last_check_time (possibly null) is used. -/
def check_mail_since (mailCount : Nat) (last_check_time : Option Nat) : Option Nat :=
  if mailCount = 0 then none else last_check_time

/-- The inbox list request issued by a pull check: check_mail feeds the
selected since value through fetch_emails into get_messages with limit 100
(graph_api.py lines 252, 361-374). -/
def check_mail_request (mailCount : Nat) (last_check_time : Option Nat) : GraphListParams :=
  get_messages_params (("inbox").data) 100 (check_mail_since mailCount last_check_time)

/-! ## Webhook HTTP endpoint (backend/app.py lines 1922-1959) -/

inductive HttpMethod where
  | GET
  | POST
deriving DecidableEq

structure HttpResponse where
  status : Nat
  contentType : List Char
  body : List Char
deriving DecidableEq

-- Flask's default content type for plain-string responses.
def HTML_CT : List Char := (("text/html; charset=utf-8").data)

/-- graph_webhook_endpoint (app.py lines 1922-1959) together with the
application's routing for this URL. The webhook rule is declared with
methods=['POST'] only; on a POST, a non-empty validationToken query
parameter is echoed back as text/plain (status 200, Flask default),
otherwise the notification branch returns an empty 202 (a token equal to
the empty string is falsy in Python and lands in the notification branch).
A GET never reaches the webhook handler: under Werkzeug's fall-through
matching the catch-all frontend route /<path:path> (app.py line 1218)
captures it, and serve_frontend (app.py lines 1219-1234) finds no static
file named api/graph/webhook and serves the frontend index - 200 text/html
with the index content, or 404 when the index file is absent. The index
file is the indexHtml parameter (none models an absent file). -/
def graph_webhook_endpoint (method : HttpMethod) (validationToken : Option (List Char))
    (indexHtml : Option (List Char)) (handlerInit : Bool) : HttpResponse :=
  match method with
  | .POST =>
    match validationToken with
    | some t =>
      if t ≠ [] then { status := 200, contentType := (("text/plain").data), body := t }
      else { status := 202, contentType := HTML_CT, body := [] }
    | none =>
      let _ := handlerInit
      { status := 202, contentType := HTML_CT, body := [] }
  | .GET =>
    match indexHtml with
    | some content => { status := 200, contentType := HTML_CT, body := content }
    | none => { status := 404, contentType := HTML_CT, body := [] }

/-! ## NotificationRouter: clientState parsing (graph_webhook.py lines 411-449) -/

def EMAIL_TAG : List Char := (("email_").data)

/-- Python str.replace applied with an empty replacement: removes every
non-overlapping occurrence of "email_" left to right, as in
client_state.replace('email_', '') (graph_webhook.py line 425). Structural
fuel equal to the input length makes the scan executable. -/
def removeEmailTagF : Nat → List Char → List Char
  | 0, s => s
  | _ + 1, [] => []
  | fuel + 1, c :: t =>
    if EMAIL_TAG.isPrefixOf (c :: t) then removeEmailTagF fuel ((c :: t).drop 6)
    else c :: removeEmailTagF fuel t

def removeEmailTag (s : List Char) : List Char := removeEmailTagF s.length s

-- Python's whitespace set stripped by int() and str.strip (core ASCII part).
def pySpace (c : Char) : Bool :=
  c = ' ' || c = '\t' || c = '\n' || c = '\r' || c = '\x0b' || c = '\x0c'

/-- Digit tail of a Python integer literal after its first digit: a run of
digits in which single underscores may appear between digits. Returns the
digits with underscores removed. -/
def pyDigitTail : List Char → Option (List Char)
  | [] => some []
  | c :: t =>
    if c = '_' then
      match t with
      | [] => none
      | d :: t2 => if d.isDigit then (pyDigitTail t2).map (fun r => d :: r) else none
    else if c.isDigit then (pyDigitTail t).map (fun r => c :: r) else none

/-- Digits of a Python integer literal: at least one digit, underscores only
between digits. -/
def pyIntDigits : List Char → Option (List Char)
  | [] => none
  | c :: t => if c.isDigit then (pyDigitTail t).map (fun r => c :: r) else none

def digitsVal (ds : List Char) : Nat :=
  ds.foldl (fun a c => a * 10 + (c.toNat - ('0').toNat)) 0

def stripPySpace (s : List Char) : List Char :=
  ((s.dropWhile pySpace).reverse.dropWhile pySpace).reverse

/-- Python int() applied to a string: optional surrounding whitespace,
optional sign, then digits with optional single underscores between digits.
Returns none where CPython raises ValueError. -/
def pyInt (s : List Char) : Option Int :=
  match stripPySpace s with
  | [] => none
  | c :: t =>
    if c = '+' then (pyIntDigits t).map (fun ds => (digitsVal ds : Int))
    else if c = '-' then (pyIntDigits t).map (fun ds => -(digitsVal ds : Int))
    else (pyIntDigits (c :: t)).map (fun ds => (digitsVal ds : Int))

/-- Owning-mailbox extraction from clientState
(graph_webhook.py lines 420-428): the string must start with "email_";
the id is int(clientState.replace('email_', '')), discarded on ValueError. -/
def parse_client_state (cs : List Char) : Option Int :=
  if EMAIL_TAG.isPrefixOf cs then pyInt (removeEmailTag cs) else none

/-- Modelled from the spec: the clientState pattern email_<integer> of
spec section 4.6, read as the literal "email_" followed directly by a
non-empty digit string. This definition follows the spec's words and is
compared against parse_client_state, which is the code's behaviour. -/
def spec_client_state_id (cs : List Char) : Option Int :=
  if EMAIL_TAG.isPrefixOf cs then
    let ds := cs.drop 6
    if ds ≠ [] ∧ ds.all Char.isDigit then some (digitsVal ds) else none
  else none

/-! ## MessageStore model and the push fetch job -/

/-- One mailbox row as handed to the router (credentials already decrypted;
empty list models a missing credential). -/
structure EmailInfo where
  id : Int
  user_id : Nat
  address : List Char
  client_id : List Char
  refresh_token : List Char
deriving DecidableEq

/-- One stored message row. -/
structure StoredMail where
  mail_id : Nat
  email_id : Int
  subject : List Char
  sender : List Char
  content : List Char
  received_time : Nat
  folder : List Char
  has_attachments : Bool
deriving DecidableEq

/-- Modelled from the spec: the persistent store (the database module is
not under the provided sources). Fields: mailbox rows, message rows, the
next fresh message id, the per-mailbox last_check_time map, and the list
of message ids routed to the PlatformClassifier. -/
structure DB where
  emails : List EmailInfo
  mails : List StoredMail
  nextMailId : Nat
  checkTime : List (Int × Nat)
  classifierFeeds : List Nat
deriving DecidableEq

def get_email_by_id (db : DB) (i : Int) : Option EmailInfo :=
  db.emails.find? (fun e => e.id = i)

def lookupCheckTime (db : DB) (i : Int) : Option Nat :=
  (db.checkTime.find? (fun p => p.1 = i)).map (fun p => p.2)

/-- The uniqueness probe of the idempotent upsert: an existing row with
the same (email_id, sender, subject, received_time) key. -/
def mail_key_hit (email_id : Int) (subject sender : List Char) (received_time : Nat)
    (r : StoredMail) : Bool :=
  r.email_id = email_id && r.sender = sender && r.subject = subject &&
    r.received_time = received_time

/-- The row inserted by a successful add, carrying the next fresh id. -/
def stored_row (mid : Nat) (email_id : Int) (subject sender : List Char)
    (received_time : Nat) (content folder : List Char) (has_attachments : Bool) :
    StoredMail :=
  { mail_id := mid, email_id := email_id, subject := subject, sender := sender,
    content := content, received_time := received_time, folder := folder,
    has_attachments := has_attachments }

/-- The store after a successful insert: the row is appended, the fresh id
advances, and the new row's id is routed to the PlatformClassifier. -/
def db_after_insert (db : DB) (email_id : Int) (subject sender : List Char)
    (received_time : Nat) (content folder : List Char) (has_attachments : Bool) : DB :=
  { db with
      mails := db.mails ++
        [stored_row db.nextMailId email_id subject sender received_time content folder
          has_attachments]
      nextMailId := db.nextMailId + 1
      classifierFeeds := db.classifierFeeds ++ [db.nextMailId] }

/-- Modelled from the spec: MessageStore.add (spec section 4.2) is an
idempotent upsert keyed by (email_id, sender, subject, received_time),
returning (inserted, mail_id); and per the spec's data flow (sections 2
and 4.6) each actually-new message is routed to the PlatformClassifier,
which the model records in classifierFeeds. -/
def add_mail_record (db : DB) (email_id : Int) (subject sender : List Char)
    (received_time : Nat) (content folder : List Char) (has_attachments : Bool) :
    DB × Bool × Option Nat :=
  if db.mails.any (mail_key_hit email_id subject sender received_time) then
    (db, false, none)
  else
    (db_after_insert db email_id subject sender received_time content folder
       has_attachments,
     true, some db.nextMailId)

/-- Modelled from the spec: MessageStore.set_check_time sets
last_check_time to the current time (spec section 4.2). -/
def update_check_time (db : DB) (i : Int) (now : Nat) : DB :=
  { db with checkTime := (i, now) :: db.checkTime.filter (fun p => p.1 ≠ i) }

/-- One message as returned by GraphAPIMailHandler.get_messages. -/
structure MsgIn where
  subject : List Char
  sender : List Char
  content : List Char
  received_time : Nat
  has_attachments : Bool
deriving DecidableEq

/-- One LiveFanout publication: the new_mails broadcast of
_broadcast_new_mails (graph_webhook.py lines 526-544). -/
structure FanoutEvent where
  user_id : Nat
  mails : List (Nat × MsgIn)
deriving DecidableEq

/-- System state threaded through the push pipeline: the store, the Graph
list requests issued, and the fanout events published. -/
structure SysState where
  db : DB
  requests : List GraphListParams
  fanout : List FanoutEvent
deriving DecidableEq

/-- Provider responses for one fetch job: whether the token refresh
succeeds, the message list the Graph call returns, and the wall-clock time
at which the check-time update runs. -/
structure FetchOracle where
  tokenOk : Bool
  messages : List MsgIn
  now : Nat

/-- The storage loop of _fetch_new_mail (graph_webhook.py lines 481-510):
each message goes through add_mail_record; the actually-inserted ones are
collected (with their fresh ids) for broadcasting. -/
def store_messages (db : DB) (email_id : Int) : List MsgIn → DB × List (Nat × MsgIn)
  | [] => (db, [])
  | m :: rest =>
    let r := add_mail_record db email_id m.subject m.sender m.received_time
      m.content (("INBOX").data) m.has_attachments
    let rec2 := store_messages r.1 email_id rest
    match r.2.1, r.2.2 with
    | true, some mid => (rec2.1, (mid, m) :: rec2.2)
    | _, _ => (rec2.1, rec2.2)

/-- _fetch_new_mail (graph_webhook.py lines 451-524): abort without any
effect when a credential is missing or the token refresh fails; otherwise
issue the inbox list request with limit 5 and no since filter; on an empty
response return early (the check time is not touched); otherwise store
each message, advance the check time, and, when at least one message was
actually inserted and a fanout handler is attached, publish the new ones. -/
def fetch_new_mail (info : EmailInfo) (oracle : FetchOracle) (wsAttached : Bool)
    (st : SysState) : SysState :=
  if info.refresh_token = [] || info.client_id = [] then st
  else if !oracle.tokenOk then st
  else
    let st1 := { st with requests := st.requests ++ [get_messages_params (("inbox").data) 5 none] }
    if oracle.messages = [] then st1
    else
      let stored := store_messages st1.db info.id oracle.messages
      let db2 := update_check_time stored.1 info.id oracle.now
      let fo :=
        if stored.2.length > 0 && wsAttached then
          st1.fanout ++ [{ user_id := info.user_id, mails := stored.2 }]
        else st1.fanout
      { st1 with db := db2, fanout := fo }

/-- One incoming change notification (graph_webhook.py lines 411-417). -/
structure Notif where
  changeType : List Char
  clientState : List Char
  resource : List Char
deriving DecidableEq

def CREATED : List Char := (("created").data)

/-- _process_single_notification (graph_webhook.py lines 411-449): parse
the owning id from clientState (discard on failure), verify the mailbox
exists (discard otherwise), and only for changeType 'created' and an id
not already in flight run the fetch job. Returns the new state and whether
a fetch job ran. -/
def process_single_notification (n : Notif) (oracle : FetchOracle) (wsAttached : Bool)
    (pushSet : List Int) (st : SysState) : SysState × Bool :=
  match parse_client_state n.clientState with
  | none => (st, false)
  | some email_id =>
    match get_email_by_id st.db email_id with
    | none => (st, false)
    | some info =>
      if n.changeType = CREATED then
        if email_id ∈ pushSet then (st, false)
        else (fetch_new_mail info oracle wsAttached st, true)
      else (st, false)

/-! ## CodeWaiter: verification-code extraction (backend/app.py lines 845-982)

The seven regular expressions of code_patterns (app.py lines 845-853) are
compiled into deterministic scanners. Character classes follow the ASCII
core of Python's re module: d is '0'-'9', w is alphanumeric or underscore,
s is the ASCII whitespace set; matching is case-insensitive, realised by
scanning the lowercased text (all captures are digits, so lowercasing does
not change them). -/

def isSepC (c : Char) : Bool := c = '：' || c = ':' || pySpace c

def isWordC (c : Char) : Bool := c.isAlphanum || c = '_'

/-- Greedy capture of d followed by nothing, as at the end of patterns 1-5:
at least four digits, at most eight taken. -/
def grabDigits48 (cs : List Char) : Option (List Char) :=
  let run := cs.takeWhile Char.isDigit
  if 4 ≤ run.length then some (run.take 8) else none

def stripLit (lit cs : List Char) : Option (List Char) :=
  if lit.isPrefixOf cs then some (cs.drop lit.length) else none

/-- Zero or more separator characters, greedily; the separator class is
disjoint from every character that can follow it in the patterns, so the
greedy scan is exact. -/
def stripSepStar (cs : List Char) : List Char := cs.dropWhile isSepC

/-- One or more separator characters, greedily. -/
def stripSepPlus : List Char → Option (List Char)
  | [] => none
  | c :: t => if isSepC c then some (t.dropWhile isSepC) else none

-- Pattern 1 at one position: 验证码 [：:\s]* (\d{4,8})
def tryP1 (cs : List Char) : Option (List Char) := do
  let r ← stripLit (("验证码").data) cs
  grabDigits48 (stripSepStar r)

-- Pattern 2 at one position: code [：:\s]+ is [：:\s]+ (\d{4,8})
def tryP2 (cs : List Char) : Option (List Char) := do
  let r1 ← stripLit (("code").data) cs
  let r2 ← stripSepPlus r1
  let r3 ← stripLit (("is").data) r2
  let r4 ← stripSepPlus r3
  grabDigits48 r4

-- Pattern 3 at one position: code [：:\s]* (\d{4,8})
def tryP3 (cs : List Char) : Option (List Char) := do
  let r ← stripLit (("code").data) cs
  grabDigits48 (stripSepStar r)

-- Pattern 4 at one position: verification [：:\s]+ code [：:\s]+ is [：:\s]+ (\d{4,8})
def tryP4 (cs : List Char) : Option (List Char) := do
  let r1 ← stripLit (("verification").data) cs
  let r2 ← stripSepPlus r1
  let r3 ← stripLit (("code").data) r2
  let r4 ← stripSepPlus r3
  let r5 ← stripLit (("is").data) r4
  let r6 ← stripSepPlus r5
  grabDigits48 r6

-- Pattern 5 at one position: verification [：:\s]* (\d{4,8})
def tryP5 (cs : List Char) : Option (List Char) := do
  let r ← stripLit (("verification").data) cs
  grabDigits48 (stripSepStar r)

-- The alternation 是您的 | 为您的 | is your of pattern 6, as a prefix test.
def p6Phrase (cs : List Char) : Bool :=
  (("是您的").data).isPrefixOf cs || (("为您的").data).isPrefixOf cs ||
    (("is your").data).isPrefixOf cs

/-- One backtracking attempt of pattern 6 with capture length k: k digits,
then \s* (greedy is exact: the phrase starts with a non-space), then the
phrase. -/
def p6TryK (cs : List Char) (k : Nat) : Option (List Char) :=
  let cap := cs.take k
  if cap.length = k ∧ cap.all Char.isDigit then
    if p6Phrase ((cs.drop k).dropWhile pySpace) then some cap else none
  else none

/-- Backtracking of the greedy d quantifier of pattern 6: capture lengths
are tried from the given bound downwards, stopping at four. -/
def p6Down (cs : List Char) : Nat → Option (List Char)
  | 0 => none
  | k + 1 =>
    if k + 1 < 4 then none
    else
      match p6TryK cs (k + 1) with
      | some r => some r
      | none => p6Down cs k

-- Pattern 6 at one position: (\d{4,8}) \s* (?:是您的|为您的|is your)
def tryP6 (cs : List Char) : Option (List Char) :=
  p6Down cs (min 8 (cs.takeWhile Char.isDigit).length)

/-- Pattern 7 at one position: \b (\d{4,8}) \b. A digit run matches exactly
when the previous character is not a word character, the whole run has
length four to eight, and the character after the run is not a word
character; the greedy quantifier cannot stop inside the run because a
digit follows. -/
def tryP7 (pre : Option Char) (cs : List Char) : Option (List Char) :=
  let boundaryBefore := match pre with | none => true | some p => !isWordC p
  if boundaryBefore then
    let run := cs.takeWhile Char.isDigit
    if 4 ≤ run.length ∧ run.length ≤ 8 then
      match cs.drop run.length with
      | [] => some run
      | c :: _ => if !isWordC c then some run else none
    else none
  else none

/-- Leftmost-match scan of re.findall: the pattern is attempted at every
position from the left; the first successful capture is returned (the
source only uses matches[0]). The previous character is carried for the
word-boundary test of pattern 7. -/
def scanFirst (f : Option Char → List Char → Option (List Char)) :
    Option Char → List Char → Option (List Char)
  | _, [] => none
  | pre, c :: t =>
    match f pre (c :: t) with
    | some r => some r
    | none => scanFirst f (some c) t

/-- The seven scanners in the priority order of code_patterns
(app.py lines 845-853). -/
def patternList : List (Option Char → List Char → Option (List Char)) :=
  [fun _ => tryP1, fun _ => tryP2, fun _ => tryP3, fun _ => tryP4,
   fun _ => tryP5, fun _ => tryP6, tryP7]

/-- The pattern loop of extract_code_from_mail (app.py lines 882-895): for
each pattern in order, take the first capture; return it when it is a pure
digit string of length four to eight, otherwise fall through to the next
pattern. -/
def findCodeInPatterns : List (Option Char → List Char → Option (List Char)) →
    List Char → Option (List Char)
  | [], _ => none
  | p :: ps, text =>
    match scanFirst p none text with
    | some code =>
      if code.all Char.isDigit ∧ 4 ≤ code.length ∧ code.length ≤ 8 then some code
      else findCodeInPatterns ps text
    | none => findCodeInPatterns ps text

def lowerL (s : List Char) : List Char := s.map Char.toLower

/-- Python substring membership (the `in` operator on str). -/
def containsSub (needle : List Char) : List Char → Bool
  | [] => needle.isEmpty
  | c :: t => needle.isPrefixOf (c :: t) || containsSub needle t

/-- The default code keywords of app.py line 856. -/
def code_keywords : List (List Char) :=
  [(("验证码").data), (("verification").data), (("code").data), (("verify").data),
   (("确认码").data), (("OTP").data), (("pin").data)]

/-- The keyword filter of extract_code_from_mail (app.py lines 865-877): a
supplied keyword must occur (case-insensitively) in subject or content;
without one, one of the default code keywords must. -/
def keywordFilterOk (keyword : List Char) (m : StoredMail) : Bool :=
  if keyword ≠ [] then
    containsSub (lowerL keyword) (lowerL m.subject) ||
      containsSub (lowerL keyword) (lowerL m.content)
  else
    code_keywords.any (fun kw =>
      containsSub (lowerL kw) (lowerL m.subject) ||
        containsSub (lowerL kw) (lowerL m.content))

/-- The result dictionary returned on a hit (app.py lines 888-895). -/
structure CodeResult where
  code : List Char
  subject : List Char
  sender : List Char
  received_time : Nat
deriving DecidableEq

/-- The text searched is subject, a space, content (app.py line 880);
scanning is over the lowercased text (IGNORECASE). -/
def searchText (m : StoredMail) : List Char :=
  lowerL (m.subject ++ [' '] ++ m.content)

/-- extract_code_from_mail (app.py lines 858-896). -/
def extract_code_from_mail (keyword : List Char) (m : StoredMail) : Option CodeResult :=
  if keywordFilterOk keyword m then
    match findCodeInPatterns patternList (searchText m) with
    | some code => some { code := code, subject := m.subject, sender := m.sender,
                          received_time := m.received_time }
    | none => none
  else none

/-- Newest-first ordering of the stored records
(sorted with reverse=True, app.py lines 908-921). -/
def insertDesc (m : StoredMail) : List StoredMail → List StoredMail
  | [] => [m]
  | x :: xs =>
    if x.received_time ≤ m.received_time then m :: x :: xs else x :: insertDesc m xs

def sortMailsDesc : List StoredMail → List StoredMail
  | [] => []
  | m :: ms => insertDesc m (sortMailsDesc ms)

/-- The initial scan of get_verification_code (app.py lines 898-944): the
stored records, newest first, restricted to those received within the last
30 seconds, are fed through extract_code_from_mail; the first hit is
returned. The window test mail_time >= now - 30 is expressed without
truncated subtraction as now <= received_time + 30. -/
def scan_recent_mails (keyword : List Char) (now : Nat) (ms : List StoredMail) :
    Option CodeResult :=
  (sortMailsDesc ms).findSome? (fun m =>
    if now ≤ m.received_time + 30 then extract_code_from_mail keyword m else none)

/-- Convenience predicate used in the statements: some pattern of
code_patterns has a match in the text. -/
def matchesAnyPattern (text : List Char) : Bool :=
  patternList.any (fun p => (scanFirst p none text).isSome)

/-! ## SubscriptionManager bulk creation (graph_webhook.py lines 277-331) -/

/-- Provider outcome of one subscription-create call
(graph_webhook.py lines 157-190): 201 created, 429 throttled carrying the
Retry-After value (default 60 when the header is absent, line 178), or any
other failure. -/
inductive CreateOutcome where
  | ok
  | throttled (retryAfter : Nat)
  | err
deriving DecidableEq

/-- One mailbox as seen by the batch creator: whether a subscription
already exists locally, and the provider's response to a create attempt. -/
structure MailboxSub where
  hasExisting : Bool
  response : CreateOutcome
deriving DecidableEq

/-- Trace state of the batch creator: elapsed seconds, the create requests
issued as (mailbox index, issue time) pairs, and the tallies. -/
structure BatchState where
  time : Nat
  reqs : List (Nat × Nat)
  created : Nat
  failed : Nat
  skipped : Nat
deriving DecidableEq

/-- The loop body of create_subscriptions_for_all_outlook_emails
(graph_webhook.py lines 297-319): an already-subscribed mailbox is skipped
with no request and no sleep (continue); otherwise the create request is
issued at the current time, its outcome is tallied (a throttled response
is counted as failed and, despite the Retry-After value received, no extra
wait is performed), the fixed 2-second inter-request sleep runs, and after
every batch_size processed mailboxes short of the end an extra
delay-second sleep runs. -/
def runBatch (batch_size delay total : Nat) : Nat → List MailboxSub → BatchState → BatchState
  | _, [], st => st
  | i, mb :: rest, st =>
    if mb.hasExisting then
      runBatch batch_size delay total (i + 1) rest { st with skipped := st.skipped + 1 }
    else
      let st1 := { st with reqs := st.reqs ++ [(i, st.time)] }
      let st2 :=
        match mb.response with
        | .ok => { st1 with created := st1.created + 1 }
        | _ => { st1 with failed := st1.failed + 1 }
      let st3 := { st2 with time := st2.time + 2 }
      let st4 :=
        if (i + 1) % batch_size = 0 ∧ i + 1 < total then
          { st3 with time := st3.time + delay }
        else st3
      runBatch batch_size delay total (i + 1) rest st4

/-- create_subscriptions_for_all_outlook_emails with its default
batch_size 50 and delay 60 (graph_webhook.py line 277). -/
def create_subscriptions_for_all (mbs : List MailboxSub) : BatchState :=
  runBatch 50 60 mbs.length 0 mbs { time := 0, reqs := [], created := 0, failed := 0, skipped := 0 }

/-! ## Bulk mailbox import (backend/app.py lines 1135-1198) -/

inductive ImportFailReason where
  | wrongFieldCount
  | emptyField
  | addRejected
deriving DecidableEq

structure ImportResult where
  total : Nat
  success : Nat
  failed_details : List (Nat × ImportFailReason)
deriving DecidableEq

def SEP4 : List Char := (("----").data)

/-- Python str.split('----'): the line is cut at every non-overlapping
occurrence of the separator, left to right. Structural fuel equal to the
input length makes the scan executable. -/
def splitDashesF : Nat → List Char → List (List Char)
  | _, [] => [[]]
  | 0, s => [s]
  | fuel + 1, c :: t =>
    if SEP4.isPrefixOf (c :: t) then [] :: splitDashesF fuel ((c :: t).drop 4)
    else
      match splitDashesF fuel t with
      | [] => [[c]]
      | g :: gs => (c :: g) :: gs

def splitDashes (s : List Char) : List (List Char) := splitDashesF s.length s

/-- Python str.strip with no argument: whitespace removed from both ends. -/
def stripWS (s : List Char) : List Char := stripPySpace s

/-- The line loop of import_emails (app.py lines 1151-1190), with the store
abstracted by addOk (db.add_email succeeds unless the address already
exists): blank lines are skipped; a line not splitting into exactly four
----separated fields is reported as malformed with its 1-based index; a
line with an empty field is reported; otherwise the row is added and a
rejected add is reported. Returns (successes, failure reports). -/
def importGo (addOk : List Char → Bool) : Nat → List (List Char) →
    Nat × List (Nat × ImportFailReason)
  | _, [] => (0, [])
  | i, line :: rest =>
    let l := stripWS line
    if l = [] then importGo addOk (i + 1) rest
    else
      let parts := splitDashes l
      if parts.length ≠ 4 then
        let r := importGo addOk (i + 1) rest
        (r.1, (i + 1, .wrongFieldCount) :: r.2)
      else if parts.any (fun p => p = []) then
        let r := importGo addOk (i + 1) rest
        (r.1, (i + 1, .emptyField) :: r.2)
      else if addOk (parts.headI) then
        let r := importGo addOk (i + 1) rest
        (r.1 + 1, r.2)
      else
        let r := importGo addOk (i + 1) rest
        (r.1, (i + 1, .addRejected) :: r.2)

/-- import_emails (app.py lines 1135-1198): the posted text is already
split into lines; total counts every line, blanks included. -/
def import_emails (lines : List (List Char)) (addOk : List Char → Bool) : ImportResult :=
  let r := importGo addOk 0 lines
  { total := lines.length, success := r.1, failed_details := r.2 }

/-- The export line for a non-Outlook mailbox
(app.py line 478): address, password and kind joined by the separator. -/
def export_line_non_outlook (addr pw kind : List Char) : List Char :=
  addr ++ SEP4 ++ pw ++ SEP4 ++ kind

/-- The export line for an Outlook mailbox (app.py line 475). -/
def export_line_outlook (addr pw cid rtok : List Char) : List Char :=
  addr ++ SEP4 ++ pw ++ SEP4 ++ cid ++ SEP4 ++ rtok

/-! ## Per-mailbox in-flight exclusion (push and pull entry points)

The push entry point guards fetches with the handler-local set
GraphWebhookHandler._processing_emails under _processing_lock
(graph_webhook.py lines 364-365 and 437-449). The pull entry points
(check_email, app.py lines 617-624, and batch_check_emails, lines 706-723)
consult email_processor.is_email_being_processed, the in-flight set of
EmailBatchProcessor. EmailBatchProcessor (utils.email) is not among the
provided sources; its set is modelled from spec section 4.7: an entry is
inserted, under a lock, before dispatch and removed when the job
completes. The two sets are distinct objects with no connection in the
source, which the state below reflects. -/

structure CheckerState where
  pushSet : List Int
  pullSet : List Int
deriving DecidableEq

/-- Transitions of the in-flight sets. A push fetch may start for an id
not in the push set (the lock-protected test-and-add of
graph_webhook.py lines 439-443) and its completion removes the id
(the finally block, lines 447-449). A pull check may start for an id not
in the pull set and its completion removes it (spec section 4.7). Neither
guard consults the other entry point's set. -/
inductive CheckStep : CheckerState → CheckerState → Prop
  | pushStart (i : Int) (s : CheckerState) (h : i ∉ s.pushSet) :
      CheckStep s { s with pushSet := i :: s.pushSet }
  | pushFinish (i : Int) (s : CheckerState) :
      CheckStep s { s with pushSet := s.pushSet.erase i }
  | pullStart (i : Int) (s : CheckerState) (h : i ∉ s.pullSet) :
      CheckStep s { s with pullSet := i :: s.pullSet }
  | pullFinish (i : Int) (s : CheckerState) :
      CheckStep s { s with pullSet := s.pullSet.erase i }

def checkerInit : CheckerState := { pushSet := [], pullSet := [] }

def CheckReachable (s : CheckerState) : Prop :=
  Relation.ReflTransGen CheckStep checkerInit s

/-! ## Theorems -/

/-! ### Shared helper lemmas -/

theorem decToy_of_encToy (p c : List Char) (h : encToy p = some c) : decToy c = some p := by
  have hc : c = FERNET_MAGIC ++ p := by
    simpa [encToy] using h.symm
  subst hc
  have hpre : FERNET_MAGIC.isPrefixOf (FERNET_MAGIC ++ p) = true :=
    List.isPrefixOf_iff_prefix.mpr (List.prefix_append _ _)
  have h6 : (6 : Nat) = FERNET_MAGIC.length := rfl
  simp only [decToy, hpre, if_true, h6, List.drop_left]

theorem magic_of_encToy (p c : List Char) (h : encToy p = some c) :
    FERNET_MAGIC.isPrefixOf c = true := by
  have hc : c = FERNET_MAGIC ++ p := by
    simpa [encToy] using h.symm
  subst hc
  exact List.isPrefixOf_iff_prefix.mpr (List.prefix_append _ _)

/-! ### C8 -/

/-- C8: decrypt returns unrecognizable input (legacy plaintext) unchanged,
and decrypt is a left inverse of encrypt on every plaintext encrypt
accepts (the empty string, which bypasses the cipher, or any plaintext the
cipher encodes). The cipher's contract - decoding inverts encoding, and
ciphertexts carry the Fernet magic prefix - enters as hypotheses. -/
theorem C8_decrypt_tolerant_roundtrip (enc dec : List Char → Option (List Char))
    (hrt : ∀ p c, enc p = some c → dec c = some p)
    (hmagic : ∀ p c, enc p = some c → FERNET_MAGIC.isPrefixOf c = true) :
    (∀ s, dec s = none → decrypt dec s = s) ∧
    (∀ p, (p = [] ∨ (enc p).isSome = true) → decrypt dec (encrypt enc p) = p) := by
  constructor
  · intro s hs
    by_cases h : s = [] <;> simp [decrypt, h, hs]
  · intro p hp
    by_cases hp0 : p = []
    · subst hp0; simp [encrypt, decrypt]
    · rcases hp with h | h
      · exact absurd h hp0
      · obtain ⟨c, hc⟩ := Option.isSome_iff_exists.mp h
        have hcne : c ≠ [] := by
          intro hnil
          have hm := hmagic p c hc
          rw [hnil] at hm
          have : FERNET_MAGIC <+: ([] : List Char) := List.isPrefixOf_iff_prefix.mp hm
          have := this.length_le
          simp [FERNET_MAGIC] at this
        have henc : encrypt enc p = c := by simp [encrypt, hp0, hc]
        rw [henc]
        simp [decrypt, hcne, hrt p c hc]

/-- C8 witness: instantiated at the toy Fernet model; a legacy plaintext
survives decrypt unchanged and a concrete round trip recovers the
plaintext. -/
theorem C8_witness :
    decrypt decToy (("legacy password").data) = (("legacy password").data) ∧
    decrypt decToy (encrypt encToy (("hunter2").data)) = (("hunter2").data) := by
  have h := C8_decrypt_tolerant_roundtrip encToy decToy decToy_of_encToy magic_of_encToy
  exact ⟨h.1 _ (by decide), h.2 _ (Or.inr (by decide))⟩

/-! ### C10 -/

/-- C10: encrypt, decrypt and is_encrypted are total functions of the
embedding; on empty input encrypt and decrypt return the input unchanged
and is_encrypted is false; and whenever the underlying cipher operation
fails, encrypt returns the plaintext itself, so a credential can be stored
unencrypted. -/
theorem C10_crypto_total_fallbacks (enc dec : List Char → Option (List Char)) :
    encrypt enc [] = [] ∧ decrypt dec [] = [] ∧ is_encrypted [] = false ∧
    (∀ p, enc p = none → encrypt enc p = p) := by
  refine ⟨by simp [encrypt], by simp [decrypt], by simp [is_encrypted], ?_⟩
  intro p h
  by_cases hp : p = [] <;> simp [encrypt, hp, h]

/-- C10 witness: a cipher that always fails leaves a concrete plaintext
unencrypted. -/
theorem C10_witness :
    encrypt (fun _ => none) (("secret").data) = (("secret").data) ∧
    is_encrypted [] = false := by
  have h := C10_crypto_total_fallbacks (fun _ => none) (fun _ => none)
  exact ⟨h.2.2.2 _ rfl, h.2.2.1⟩

/-! ### C6 -/

/-- C6 counterexample: a GET carrying validationToken=T never reaches the
webhook handler - the catch-all frontend route captures it and answers
with the frontend index (200 text/html with the index content) or 404
when the index file is absent - so the response is never the token as
text/plain; moreover a POST whose validationToken is the empty string
lands in the notification branch (202). -/
theorem C6_counterexample :
    graph_webhook_endpoint .GET (some [ ('T') ]) (some (("<html>").data)) true =
      { status := 200, contentType := HTML_CT, body := (("<html>").data) } ∧
    ¬ (graph_webhook_endpoint .GET (some [ ('T') ]) (some (("<html>").data))
        true).contentType = (("text/plain").data) ∧
    ¬ (graph_webhook_endpoint .GET (some [ ('T') ]) (some (("<html>").data))
        true).body = [ ('T') ] ∧
    (graph_webhook_endpoint .GET (some [ ('T') ]) none true).status = 404 ∧
    (graph_webhook_endpoint .POST (some []) none true).status = 202 := by
  refine ⟨by decide, by decide, by decide, by decide, by decide⟩

/-- C6 amended: a POST request to the webhook endpoint carrying a
non-empty validationToken=T is answered with status 200, Content-Type
text/plain, and a body exactly equal to T; a GET to this URL is captured
by the frontend catch-all route and always answered with Content-Type
text/html (the frontend index, or a 404), so the token is never echoed on
a GET. -/
theorem C6_validation_echo (t : List Char) (h : t ≠ []) (idx : Option (List Char))
    (hi : Bool) :
    graph_webhook_endpoint .POST (some t) idx hi =
      { status := 200, contentType := (("text/plain").data), body := t } ∧
    (graph_webhook_endpoint .GET (some t) idx hi).contentType = HTML_CT := by
  constructor
  · simp [graph_webhook_endpoint, h]
  · cases idx <;> rfl

/-- C6 witness: the POST echo and the GET catch-all content type at the
concrete token T. -/
theorem C6_witness :
    graph_webhook_endpoint .POST (some [ ('T') ]) none true =
      { status := 200, contentType := (("text/plain").data), body := [ ('T') ] } ∧
    (graph_webhook_endpoint .GET (some [ ('T') ]) none true).contentType = HTML_CT :=
  C6_validation_echo [ ('T') ] (by decide) none true

/-! ### C5 -/

/-- C5 counterexample: a mailbox with three stored messages whose
last_check_time is null (reachable, e.g. after .eml uploads into the
IMPORTED folder and before any check) produces a list request without the
receivedDateTime filter, although the claim requires the filter whenever
at least one message is stored. -/
theorem C5_counterexample :
    (check_mail_request 3 none).filter = none ∧ (3 : Nat) ≠ 0 := by
  exact ⟨rfl, by decide⟩

/-- C5 amended: with zero stored messages the pull check issues the list
request without the receivedDateTime filter; with at least one stored
message and a non-null last_check_time the request carries the filter
built from that time. -/
theorem C5_first_sync_filter (n : Nat) (lct : Option Nat) (t : Nat) :
    (n = 0 → (check_mail_request n lct).filter = none) ∧
    (n ≠ 0 → lct = some t → (check_mail_request n lct).filter = some t) := by
  constructor
  · intro h
    simp [check_mail_request, get_messages_params, check_mail_since, h]
  · intro h ht
    simp [check_mail_request, get_messages_params, check_mail_since, h, ht]

/-- C5 witness: both branches at concrete counts and times. -/
theorem C5_witness :
    (check_mail_request 0 (some 5)).filter = none ∧
    (check_mail_request 2 (some 5)).filter = some 5 :=
  ⟨(C5_first_sync_filter 0 (some 5) 5).1 rfl,
   (C5_first_sync_filter 2 (some 5) 5).2 (by decide) rfl⟩

/-! ### C7 -/

/-- C7: evaluation at the failing input. Two unsubscribed mailboxes; the
provider answers the first create with 429 Retry-After 30. The batch
creator issues the second create 2 seconds after the first (the fixed
inter-request sleep), not after the 30 seconds the claim requires; the
throttled attempt is merely tallied as failed. -/
theorem C7_throttled_no_wait :
    (create_subscriptions_for_all
      [{ hasExisting := false, response := .throttled 30 },
       { hasExisting := false, response := .ok }]).reqs = [(0, 0), (1, 2)] ∧
    (create_subscriptions_for_all
      [{ hasExisting := false, response := .throttled 30 },
       { hasExisting := false, response := .ok }]).failed = 1 ∧
    (2 : Nat) < 30 := by
  refine ⟨by decide, by decide, by decide⟩

/-! ### C9 -/

/-- C9: evaluation at the failing input. The import loop demands exactly
four ----separated fields on every line whatever the posted mail_type, so
the three-field non-Outlook line that export itself produces is reported
as malformed; blank lines are skipped and a well-formed Outlook line is
accepted. -/
theorem C9_import_rejects_non_outlook :
    import_emails
        [export_line_non_outlook (("a@qq.com").data) (("pw123").data) (("qq").data)]
        (fun _ => true) =
      { total := 1, success := 0, failed_details := [(1, .wrongFieldCount)] } ∧
    import_emails
        [[], export_line_outlook (("b@o.com").data) (("pw").data) (("cid").data) (("rt").data)]
        (fun _ => true) =
      { total := 2, success := 1, failed_details := [] } := by
  refine ⟨by decide, by decide⟩

/-! ### C2 helper lemmas -/

theorem digit_ne (c d : Char) (h : c.isDigit = true) (hd : d.isDigit = false) : c ≠ d := by
  intro he
  subst he
  rw [h] at hd
  cases hd

theorem digit_not_pySpace (c : Char) (h : c.isDigit = true) : pySpace c = false := by
  have h1 : c ≠ ' ' := digit_ne c ' ' h (by decide)
  have h2 : c ≠ '\t' := digit_ne c '\t' h (by decide)
  have h3 : c ≠ '\n' := digit_ne c '\n' h (by decide)
  have h4 : c ≠ '\r' := digit_ne c '\r' h (by decide)
  have h5 : c ≠ '\x0b' := digit_ne c '\x0b' h (by decide)
  have h6 : c ≠ '\x0c' := digit_ne c '\x0c' h (by decide)
  simp [pySpace, h1, h2, h3, h4, h5, h6]

theorem all_digits_dropWhile (l : List Char) (h : l.all Char.isDigit = true) :
    l.dropWhile pySpace = l := by
  cases l with
  | nil => rfl
  | cons c t =>
    have hc : c.isDigit = true := by
      rw [List.all_cons, Bool.and_eq_true] at h
      exact h.1
    simp [List.dropWhile_cons, digit_not_pySpace c hc]

theorem stripPySpace_digits (l : List Char) (h : l.all Char.isDigit = true) :
    stripPySpace l = l := by
  have hrev : l.reverse.all Char.isDigit = true := by
    rw [List.all_eq_true] at h ⊢
    intro x hx
    exact h x (List.mem_reverse.mp hx)
  unfold stripPySpace
  rw [all_digits_dropWhile l h, all_digits_dropWhile l.reverse hrev, List.reverse_reverse]

theorem pyDigitTail_digits (t : List Char) (h : t.all Char.isDigit = true) :
    pyDigitTail t = some t := by
  induction t with
  | nil => rfl
  | cons c t ih =>
    rw [List.all_cons, Bool.and_eq_true] at h
    have hne : c ≠ '_' := digit_ne c '_' h.1 (by decide)
    rw [pyDigitTail.eq_def]
    simp only []
    rw [if_neg hne, if_pos h.1, ih h.2]
    rfl

theorem pyIntDigits_digits (l : List Char) (h1 : l ≠ []) (h : l.all Char.isDigit = true) :
    pyIntDigits l = some l := by
  cases l with
  | nil => exact absurd rfl h1
  | cons c t =>
    rw [List.all_cons, Bool.and_eq_true] at h
    simp [pyIntDigits, h.1, pyDigitTail_digits t h.2]

theorem pyInt_digits (l : List Char) (h1 : l ≠ []) (h : l.all Char.isDigit = true) :
    pyInt l = some (digitsVal l) := by
  unfold pyInt
  rw [stripPySpace_digits l h]
  cases l with
  | nil => exact absurd rfl h1
  | cons c t =>
    have hc : c.isDigit = true := by
      rw [List.all_cons, Bool.and_eq_true] at h
      exact h.1
    have hplus : c ≠ '+' := digit_ne c '+' hc (by decide)
    have hminus : c ≠ '-' := digit_ne c '-' hc (by decide)
    simp [hplus, hminus, pyIntDigits_digits (c :: t) (by simp) h]

theorem email_tag_not_prefix_digits (c : Char) (t : List Char) (hc : c.isDigit = true) :
    EMAIL_TAG.isPrefixOf (c :: t) = false := by
  cases hq : EMAIL_TAG.isPrefixOf (c :: t) with
  | false => rfl
  | true =>
    exfalso
    obtain ⟨r, hr⟩ := List.isPrefixOf_iff_prefix.mp hq
    have hE : EMAIL_TAG ++ r = 'e' :: ((("mail_").data) ++ r) := rfl
    rw [hE] at hr
    injection hr with h1 _
    rw [← h1] at hc
    exact absurd hc (by decide)

theorem removeEmailTagF_digits (fuel : Nat) (l : List Char) (h : l.all Char.isDigit = true) :
    removeEmailTagF fuel l = l := by
  induction fuel generalizing l with
  | zero => rfl
  | succ k ih =>
    cases l with
    | nil => rfl
    | cons c t =>
      rw [List.all_cons, Bool.and_eq_true] at h
      simp [removeEmailTagF, email_tag_not_prefix_digits c t h.1, ih t h.2]

theorem removeEmailTagF_tag (fuel : Nat) (ds : List Char) :
    removeEmailTagF (fuel + 1) (EMAIL_TAG ++ ds) = removeEmailTagF fuel ds := by
  have hpre : EMAIL_TAG.isPrefixOf (EMAIL_TAG ++ ds) = true :=
    List.isPrefixOf_iff_prefix.mpr (List.prefix_append _ _)
  have hdrop : (EMAIL_TAG ++ ds).drop 6 = ds := by
    have h6 : (6 : Nat) = EMAIL_TAG.length := rfl
    rw [h6, List.drop_left]
  have hcons : EMAIL_TAG ++ ds = 'e' :: ((("mail_").data) ++ ds) := rfl
  conv_lhs => rw [hcons]
  rw [removeEmailTagF]
  rw [← hcons, if_pos hpre, hdrop]

theorem parse_of_spec (cs : List Char) (i : Int) (h : spec_client_state_id cs = some i) :
    parse_client_state cs = some i := by
  unfold spec_client_state_id at h
  by_cases hp : EMAIL_TAG.isPrefixOf cs = true
  · rw [if_pos hp] at h
    obtain ⟨r, hr⟩ := List.isPrefixOf_iff_prefix.mp hp
    have hdrop : cs.drop 6 = r := by
      rw [← hr]
      have h6 : (6 : Nat) = EMAIL_TAG.length := rfl
      rw [h6, List.drop_left]
    rw [hdrop] at h
    by_cases hds : r ≠ [] ∧ r.all Char.isDigit = true
    · rw [if_pos hds] at h
      have hi : i = (digitsVal r : Int) := by
        injection h with h2
        exact h2.symm
      unfold parse_client_state
      rw [if_pos hp]
      have hlen : cs.length = r.length + 5 + 1 := by
        rw [← hr, List.length_append]
        have h6 : EMAIL_TAG.length = 6 := rfl
        rw [h6]
        omega
      unfold removeEmailTag
      rw [hlen, ← hr, removeEmailTagF_tag, removeEmailTagF_digits _ r hds.2,
        pyInt_digits r hds.1 hds.2, hi]
      rfl
    · rw [if_neg hds] at h
      cases h
  · rw [if_neg hp] at h
    cases h

/-! ### C2 -/

/-- C2 counterexample: the clientState email_email_7 does not match the
pattern email_<integer> (what follows email_ is email_7, not an integer),
yet the router accepts it with owning id 7 - int() is applied after every
occurrence of email_ has been removed - and, with mailbox 7 present and
changeType created, a fetch job is started for it. -/
theorem C2_counterexample :
    parse_client_state (("email_email_7").data) = some 7 ∧
    spec_client_state_id (("email_email_7").data) = none ∧
    (process_single_notification
      { changeType := CREATED, clientState := (("email_email_7").data), resource := [] }
      { tokenOk := true, messages := [], now := 0 } true []
      { db := { emails := [{ id := 7, user_id := 1, address := [],
                             client_id := [ ('c') ], refresh_token := [ ('r') ] }],
                mails := [], nextMailId := 0, checkTime := [], classifierFeeds := [] },
        requests := [], fanout := [] }).2 = true := by
  refine ⟨by decide, by decide, by decide⟩

/-- C2 amended: the router accepts an owning email_id exactly when
clientState starts with "email_" and the string obtained by deleting every
occurrence of "email_" parses as a Python integer literal (in particular
every clientState of the form email_<integer> is accepted, with that id);
a notification failing this parse, or whose parsed mailbox id does not
exist in the store, is discarded with no fetch and no state mutation; and
a fetch job is started only when changeType equals 'created'. -/
theorem C2_routing (n : Notif) (oracle : FetchOracle) (ws : Bool) (ps : List Int)
    (st : SysState) :
    (parse_client_state n.clientState = none →
      process_single_notification n oracle ws ps st = (st, false)) ∧
    (∀ i, parse_client_state n.clientState = some i → get_email_by_id st.db i = none →
      process_single_notification n oracle ws ps st = (st, false)) ∧
    ((process_single_notification n oracle ws ps st).2 = true → n.changeType = CREATED) ∧
    (∀ cs i, spec_client_state_id cs = some i → parse_client_state cs = some i) := by
  refine ⟨?_, ?_, ?_, fun cs i h => parse_of_spec cs i h⟩
  · intro h
    simp [process_single_notification, h]
  · intro i hp hm
    simp [process_single_notification, hp, hm]
  · intro h
    by_contra hct
    cases hparse : parse_client_state n.clientState with
    | none => simp [process_single_notification, hparse] at h
    | some i =>
      cases hmb : get_email_by_id st.db i with
      | none => simp [process_single_notification, hparse, hmb] at h
      | some info => simp [process_single_notification, hparse, hmb, hct] at h

/-- C2 witness: a malformed clientState is discarded without touching the
state, at a concrete store. -/
theorem C2_witness :
    process_single_notification
      { changeType := CREATED, clientState := (("bogus").data), resource := [] }
      { tokenOk := true, messages := [], now := 0 } true []
      { db := { emails := [], mails := [], nextMailId := 0, checkTime := [],
                classifierFeeds := [] },
        requests := [], fanout := [] } =
      ({ db := { emails := [], mails := [], nextMailId := 0, checkTime := [],
                 classifierFeeds := [] },
         requests := [], fanout := [] }, false) :=
  (C2_routing _ _ _ _ _).1 (by decide)

/-! ### C4 -/

/-- C4 counterexample: from the initial state a push fetch for mailbox 1
may start (its guard consults only the push set) and then a pull check for
mailbox 1 may also start (its guard consults only the pull set), so a
state in which both a push job and a pull job for the same mailbox are in
flight is reachable - the two entry points do not exclude each other. -/
theorem C4_counterexample :
    CheckReachable { pushSet := [1], pullSet := [1] } ∧
    (1 : Int) ∈ ({ pushSet := [1], pullSet := [1] } : CheckerState).pushSet ∧
    (1 : Int) ∈ ({ pushSet := [1], pullSet := [1] } : CheckerState).pullSet := by
  refine ⟨?_, by decide, by decide⟩
  have h1 : CheckStep checkerInit { pushSet := [1], pullSet := [] } :=
    CheckStep.pushStart 1 checkerInit (by simp [checkerInit])
  have h2 : CheckStep { pushSet := [1], pullSet := [] } { pushSet := [1], pullSet := [1] } :=
    CheckStep.pullStart 1 { pushSet := [1], pullSet := [] } (by simp)
  exact Relation.ReflTransGen.head h1 (Relation.ReflTransGen.head h2 .refl)

/-- C4 amended: within each entry point the exclusion holds - in every
reachable state the push in-flight set and the pull in-flight set each
contain no mailbox id twice, because a new push (resp. pull) job for an id
is refused while a push (resp. pull) job for that id is in flight - but a
push fetch and a pull check for the same mailbox may overlap, the two
entry points keeping separate in-flight sets. -/
theorem C4_per_entry_exclusion (s : CheckerState) (h : CheckReachable s) :
    s.pushSet.Nodup ∧ s.pullSet.Nodup := by
  induction h with
  | refl => exact ⟨List.nodup_nil, List.nodup_nil⟩
  | tail _ hstep ih =>
    cases hstep with
    | pushStart i s hi => exact ⟨List.Nodup.cons hi ih.1, ih.2⟩
    | pushFinish i s => exact ⟨List.Nodup.erase i ih.1, ih.2⟩
    | pullStart i s hi => exact ⟨ih.1, List.Nodup.cons hi ih.2⟩
    | pullFinish i s => exact ⟨ih.1, List.Nodup.erase i ih.2⟩

/-- C4 witness: the amended invariant applied at the initial state. -/
theorem C4_witness : checkerInit.pushSet.Nodup ∧ checkerInit.pullSet.Nodup :=
  C4_per_entry_exclusion checkerInit Relation.ReflTransGen.refl

/-! ### C1 helper lemmas -/

theorem store_cons_dup (db : DB) (e : Int) (m : MsgIn) (rest : List MsgIn)
    (hdup : db.mails.any (mail_key_hit e m.subject m.sender m.received_time) = true) :
    store_messages db e (m :: rest) = store_messages db e rest := by
  simp [store_messages, add_mail_record, hdup]

theorem store_cons_new (db : DB) (e : Int) (m : MsgIn) (rest : List MsgIn)
    (hdup : ¬ db.mails.any (mail_key_hit e m.subject m.sender m.received_time) = true) :
    store_messages db e (m :: rest) =
      ((store_messages (db_after_insert db e m.subject m.sender m.received_time
          m.content (("INBOX").data) m.has_attachments) e rest).1,
       (db.nextMailId, m) ::
         (store_messages (db_after_insert db e m.subject m.sender m.received_time
           m.content (("INBOX").data) m.has_attachments) e rest).2) := by
  simp [store_messages, add_mail_record, hdup]

theorem store_mails_ext (e : Int) (ms : List MsgIn) (db : DB) :
    ∃ ext, (store_messages db e ms).1.mails = db.mails ++ ext := by
  induction ms generalizing db with
  | nil => exact ⟨[], by simp [store_messages]⟩
  | cons m rest ih =>
    by_cases hdup : db.mails.any (mail_key_hit e m.subject m.sender m.received_time) = true
    · rw [store_cons_dup db e m rest hdup]
      exact ih db
    · rw [store_cons_new db e m rest hdup]
      obtain ⟨ext, hext⟩ := ih (db_after_insert db e m.subject m.sender m.received_time
        m.content (("INBOX").data) m.has_attachments)
      refine ⟨stored_row db.nextMailId e m.subject m.sender m.received_time
        m.content (("INBOX").data) m.has_attachments :: ext, ?_⟩
      rw [hext]
      simp [db_after_insert]

theorem store_feeds_ext (e : Int) (ms : List MsgIn) (db : DB) :
    ∃ ext, (store_messages db e ms).1.classifierFeeds = db.classifierFeeds ++ ext := by
  induction ms generalizing db with
  | nil => exact ⟨[], by simp [store_messages]⟩
  | cons m rest ih =>
    by_cases hdup : db.mails.any (mail_key_hit e m.subject m.sender m.received_time) = true
    · rw [store_cons_dup db e m rest hdup]
      exact ih db
    · rw [store_cons_new db e m rest hdup]
      obtain ⟨ext, hext⟩ := ih (db_after_insert db e m.subject m.sender m.received_time
        m.content (("INBOX").data) m.has_attachments)
      refine ⟨db.nextMailId :: ext, ?_⟩
      rw [hext]
      simp [db_after_insert]

theorem store_stores (e : Int) (ms : List MsgIn) (db : DB) (m : MsgIn) (hm : m ∈ ms) :
    ∃ row ∈ (store_messages db e ms).1.mails,
      row.email_id = e ∧ row.subject = m.subject ∧ row.sender = m.sender ∧
      row.received_time = m.received_time := by
  induction ms generalizing db with
  | nil => cases hm
  | cons m0 rest ih =>
    by_cases hdup : db.mails.any (mail_key_hit e m0.subject m0.sender m0.received_time) = true
    · rw [store_cons_dup db e m0 rest hdup]
      rcases List.mem_cons.mp hm with heq | hm2
      · subst heq
        obtain ⟨row, hrow, hkey⟩ := List.any_eq_true.mp hdup
        simp only [mail_key_hit, Bool.and_eq_true, decide_eq_true_eq] at hkey
        obtain ⟨ext, hext⟩ := store_mails_ext e rest db
        refine ⟨row, ?_, hkey.1.1.1, hkey.1.2, hkey.1.1.2, hkey.2⟩
        rw [hext]
        exact List.mem_append.mpr (Or.inl hrow)
      · exact ih db hm2
    · rw [store_cons_new db e m0 rest hdup]
      rcases List.mem_cons.mp hm with heq | hm2
      · subst heq
        obtain ⟨ext, hext⟩ := store_mails_ext e rest (db_after_insert db e m.subject
          m.sender m.received_time m.content (("INBOX").data) m.has_attachments)
        refine ⟨stored_row db.nextMailId e m.subject m.sender m.received_time
          m.content (("INBOX").data) m.has_attachments, ?_, rfl, rfl, rfl, rfl⟩
        rw [hext]
        refine List.mem_append.mpr (Or.inl ?_)
        simp [db_after_insert]
      · exact ih (db_after_insert db e m0.subject m0.sender m0.received_time
          m0.content (("INBOX").data) m0.has_attachments) hm2

theorem store_feeds (e : Int) (ms : List MsgIn) (db : DB) :
    ∀ p ∈ (store_messages db e ms).2, p.1 ∈ (store_messages db e ms).1.classifierFeeds := by
  induction ms generalizing db with
  | nil => simp [store_messages]
  | cons m rest ih =>
    by_cases hdup : db.mails.any (mail_key_hit e m.subject m.sender m.received_time) = true
    · rw [store_cons_dup db e m rest hdup]
      exact ih db
    · rw [store_cons_new db e m rest hdup]
      intro p hp
      rcases List.mem_cons.mp hp with heq | hp2
      · subst heq
        obtain ⟨ext, hext⟩ := store_feeds_ext e rest (db_after_insert db e m.subject
          m.sender m.received_time m.content (("INBOX").data) m.has_attachments)
        rw [hext]
        refine List.mem_append.mpr (Or.inl ?_)
        simp [db_after_insert]
      · exact ih (db_after_insert db e m.subject m.sender m.received_time
          m.content (("INBOX").data) m.has_attachments) p hp2

theorem lookup_update (db : DB) (i : Int) (now : Nat) :
    lookupCheckTime (update_check_time db i now) i = some now := by
  simp [lookupCheckTime, update_check_time, List.find?_cons]

/-! ### C1 -/

/-- C1 counterexample: a notification with changeType created for the
existing mailbox 1 is accepted and the fetch job runs (token refresh
succeeds), but the Graph call returns no messages and the job returns
early - the mailbox's last_check_time is not advanced, although the claim
requires the fetch job to advance it. -/
theorem C1_counterexample :
    (process_single_notification
      { changeType := CREATED, clientState := (("email_1").data), resource := [] }
      { tokenOk := true, messages := [], now := 100 } true []
      { db := { emails := [{ id := 1, user_id := 9, address := [],
                             client_id := [ ('c') ], refresh_token := [ ('r') ] }],
                mails := [], nextMailId := 0, checkTime := [], classifierFeeds := [] },
        requests := [], fanout := [] }).2 = true ∧
    lookupCheckTime
      (process_single_notification
        { changeType := CREATED, clientState := (("email_1").data), resource := [] }
        { tokenOk := true, messages := [], now := 100 } true []
        { db := { emails := [{ id := 1, user_id := 9, address := [],
                               client_id := [ ('c') ], refresh_token := [ ('r') ] }],
                  mails := [], nextMailId := 0, checkTime := [], classifierFeeds := [] },
          requests := [], fanout := [] }).1.db 1 = none := by
  refine ⟨by decide, by decide⟩

/-- C1 amended: when the router accepts a changeType-created notification
for an existing mailbox that is not already in flight, the fetch job
refreshes the access token and lists the 5 most recent INBOX messages
with no since filter; provided the mailbox's credentials are present, the
refresh succeeds and at least one message is returned, it stores each
returned message, advances the mailbox's last_check_time, and, for each
message that was actually newly inserted, publishes it via LiveFanout (one
new_mails event carrying exactly the inserted messages) and feeds it to
the PlatformClassifier; with an empty message list the job returns early
and last_check_time is not advanced. -/
theorem C1_push_fetch_pipeline (n : Notif) (oracle : FetchOracle) (ps : List Int)
    (st : SysState) (i : Int) (info : EmailInfo)
    (hparse : parse_client_state n.clientState = some i)
    (hmb : get_email_by_id st.db i = some info)
    (hct : n.changeType = CREATED)
    (hnf : i ∉ ps)
    (hrt : info.refresh_token ≠ [])
    (hcid : info.client_id ≠ [])
    (htok : oracle.tokenOk = true)
    (hmsgs : oracle.messages ≠ []) :
    (process_single_notification n oracle true ps st).2 = true ∧
    (process_single_notification n oracle true ps st).1.requests =
      st.requests ++ [get_messages_params (("inbox").data) 5 none] ∧
    (∀ m ∈ oracle.messages,
      ∃ row ∈ (process_single_notification n oracle true ps st).1.db.mails,
        row.email_id = info.id ∧ row.subject = m.subject ∧ row.sender = m.sender ∧
        row.received_time = m.received_time) ∧
    lookupCheckTime (process_single_notification n oracle true ps st).1.db info.id =
      some oracle.now ∧
    ((store_messages st.db info.id oracle.messages).2 ≠ [] →
      (process_single_notification n oracle true ps st).1.fanout =
        st.fanout ++ [{ user_id := info.user_id,
                        mails := (store_messages st.db info.id oracle.messages).2 }]) ∧
    ((store_messages st.db info.id oracle.messages).2 = [] →
      (process_single_notification n oracle true ps st).1.fanout = st.fanout) ∧
    (∀ p ∈ (store_messages st.db info.id oracle.messages).2,
      p.1 ∈ (process_single_notification n oracle true ps st).1.db.classifierFeeds) := by
  have hproc : process_single_notification n oracle true ps st =
      (fetch_new_mail info oracle true st, true) := by
    simp [process_single_notification, hparse, hmb, hct, hnf]
  have hdb : (fetch_new_mail info oracle true st).db =
      update_check_time (store_messages st.db info.id oracle.messages).1 info.id
        oracle.now := by
    simp [fetch_new_mail, hrt, hcid, htok, hmsgs]
  have hreq : (fetch_new_mail info oracle true st).requests =
      st.requests ++ [get_messages_params (("inbox").data) 5 none] := by
    simp [fetch_new_mail, hrt, hcid, htok, hmsgs]
  have hmails : (fetch_new_mail info oracle true st).db.mails =
      (store_messages st.db info.id oracle.messages).1.mails := by
    rw [hdb]
    simp [update_check_time]
  have hfeeds2 : (fetch_new_mail info oracle true st).db.classifierFeeds =
      (store_messages st.db info.id oracle.messages).1.classifierFeeds := by
    rw [hdb]
    simp [update_check_time]
  refine ⟨by rw [hproc], by rw [hproc]; exact hreq, ?_, ?_, ?_, ?_, ?_⟩
  · intro m hm
    rw [hproc]
    obtain ⟨row, hrow, hprops⟩ :=
      store_stores info.id oracle.messages st.db m hm
    refine ⟨row, ?_, hprops⟩
    simpa [hmails] using hrow
  · rw [hproc]
    simp only [hdb]
    exact lookup_update _ _ _
  · intro hne
    rw [hproc]
    have hlen : 0 < (store_messages st.db info.id oracle.messages).2.length :=
      List.length_pos.mpr hne
    simp [fetch_new_mail, hrt, hcid, htok, hmsgs, hlen]
  · intro hnil
    rw [hproc]
    simp [fetch_new_mail, hrt, hcid, htok, hmsgs, hnil]
  · intro p hp
    rw [hproc]
    rw [show (fetch_new_mail info oracle true st, true).1 = fetch_new_mail info oracle true st from rfl]
    rw [hfeeds2]
    exact store_feeds info.id oracle.messages st.db p hp

/-- C1 witness: the pipeline at a concrete notification, mailbox and
single-message response: the fetch runs and the check time advances to the
oracle's clock. -/
theorem C1_witness :
    (process_single_notification
      { changeType := CREATED, clientState := (("email_1").data), resource := [] }
      { tokenOk := true,
        messages := [{ subject := (("hello").data), sender := (("a@b.c").data),
                       content := [], received_time := 90, has_attachments := false }],
        now := 100 } true []
      { db := { emails := [{ id := 1, user_id := 9, address := [],
                             client_id := [ ('c') ], refresh_token := [ ('r') ] }],
                mails := [], nextMailId := 0, checkTime := [], classifierFeeds := [] },
        requests := [], fanout := [] }).2 = true ∧
    lookupCheckTime
      (process_single_notification
        { changeType := CREATED, clientState := (("email_1").data), resource := [] }
        { tokenOk := true,
          messages := [{ subject := (("hello").data), sender := (("a@b.c").data),
                         content := [], received_time := 90, has_attachments := false }],
          now := 100 } true []
        { db := { emails := [{ id := 1, user_id := 9, address := [],
                               client_id := [ ('c') ], refresh_token := [ ('r') ] }],
                  mails := [], nextMailId := 0, checkTime := [], classifierFeeds := [] },
          requests := [], fanout := [] }).1.db 1 = some 100 := by
  have h := C1_push_fetch_pipeline
    { changeType := CREATED, clientState := (("email_1").data), resource := [] }
    { tokenOk := true,
      messages := [{ subject := (("hello").data), sender := (("a@b.c").data),
                     content := [], received_time := 90, has_attachments := false }],
      now := 100 } []
    { db := { emails := [{ id := 1, user_id := 9, address := [],
                           client_id := [ ('c') ], refresh_token := [ ('r') ] }],
              mails := [], nextMailId := 0, checkTime := [], classifierFeeds := [] },
      requests := [], fanout := [] } 1
    { id := 1, user_id := 9, address := [], client_id := [ ('c') ],
      refresh_token := [ ('r') ] }
    (by decide) (by decide) rfl (by decide) (by decide) (by decide) rfl (by decide)
  exact ⟨h.1, h.2.2.2.1⟩

/-! ### C3 helper lemmas -/

theorem grabDigits48_valid (cs code : List Char) (h : grabDigits48 cs = some code) :
    code.all Char.isDigit = true ∧ 4 ≤ code.length ∧ code.length ≤ 8 := by
  unfold grabDigits48 at h
  by_cases h4 : 4 ≤ (cs.takeWhile Char.isDigit).length
  · rw [if_pos h4] at h
    injection h with h
    subst h
    refine ⟨?_, ?_, ?_⟩
    · rw [List.all_eq_true]
      intro x hx
      exact List.mem_takeWhile_imp (List.mem_of_mem_take hx)
    · rw [List.length_take, Nat.min_def]
      split <;> omega
    · rw [List.length_take, Nat.min_def]
      split <;> omega
  · rw [if_neg h4] at h
    cases h

theorem tryP1_valid (cs code : List Char) (h : tryP1 cs = some code) :
    code.all Char.isDigit = true ∧ 4 ≤ code.length ∧ code.length ≤ 8 := by
  simp only [tryP1, bind, Option.bind_eq_some] at h
  obtain ⟨r, _, hg⟩ := h
  exact grabDigits48_valid _ _ hg

theorem tryP2_valid (cs code : List Char) (h : tryP2 cs = some code) :
    code.all Char.isDigit = true ∧ 4 ≤ code.length ∧ code.length ≤ 8 := by
  simp only [tryP2, bind, Option.bind_eq_some] at h
  obtain ⟨r1, _, r2, _, r3, _, r4, _, hg⟩ := h
  exact grabDigits48_valid _ _ hg

theorem tryP3_valid (cs code : List Char) (h : tryP3 cs = some code) :
    code.all Char.isDigit = true ∧ 4 ≤ code.length ∧ code.length ≤ 8 := by
  simp only [tryP3, bind, Option.bind_eq_some] at h
  obtain ⟨r, _, hg⟩ := h
  exact grabDigits48_valid _ _ hg

theorem tryP4_valid (cs code : List Char) (h : tryP4 cs = some code) :
    code.all Char.isDigit = true ∧ 4 ≤ code.length ∧ code.length ≤ 8 := by
  simp only [tryP4, bind, Option.bind_eq_some] at h
  obtain ⟨r1, _, r2, _, r3, _, r4, _, r5, _, r6, _, hg⟩ := h
  exact grabDigits48_valid _ _ hg

theorem tryP5_valid (cs code : List Char) (h : tryP5 cs = some code) :
    code.all Char.isDigit = true ∧ 4 ≤ code.length ∧ code.length ≤ 8 := by
  simp only [tryP5, bind, Option.bind_eq_some] at h
  obtain ⟨r, _, hg⟩ := h
  exact grabDigits48_valid _ _ hg

theorem p6TryK_valid (cs code : List Char) (k : Nat) (h : p6TryK cs k = some code) :
    code.all Char.isDigit = true ∧ code.length = k := by
  simp only [p6TryK] at h
  by_cases hc : (cs.take k).length = k ∧ (cs.take k).all Char.isDigit = true
  · rw [if_pos hc] at h
    by_cases hp : p6Phrase ((cs.drop k).dropWhile pySpace) = true
    · rw [if_pos hp] at h
      injection h with h
      subst h
      exact ⟨hc.2, hc.1⟩
    · rw [if_neg hp] at h
      cases h
  · rw [if_neg hc] at h
    cases h

theorem p6Down_valid (cs code : List Char) (b : Nat) (hb : b ≤ 8)
    (h : p6Down cs b = some code) :
    code.all Char.isDigit = true ∧ 4 ≤ code.length ∧ code.length ≤ 8 := by
  induction b with
  | zero =>
    simp only [p6Down] at h
    exact Option.noConfusion h
  | succ k ih =>
    simp only [p6Down] at h
    by_cases h4 : k + 1 < 4
    · rw [if_pos h4] at h
      cases h
    · rw [if_neg h4] at h
      cases hk : p6TryK cs (k + 1) with
      | some r =>
        rw [hk] at h
        obtain ⟨hall, hlen⟩ := p6TryK_valid cs r (k + 1) hk
        injection h with h
        subst h
        exact ⟨hall, by omega, by omega⟩
      | none =>
        rw [hk] at h
        exact ih (by omega) h

theorem tryP6_valid (cs code : List Char) (h : tryP6 cs = some code) :
    code.all Char.isDigit = true ∧ 4 ≤ code.length ∧ code.length ≤ 8 := by
  unfold tryP6 at h
  exact p6Down_valid cs code _ (Nat.min_le_left _ _) h

theorem tryP7_valid (pre : Option Char) (cs code : List Char)
    (h : tryP7 pre cs = some code) :
    code.all Char.isDigit = true ∧ 4 ≤ code.length ∧ code.length ≤ 8 := by
  simp only [tryP7] at h
  split at h
  · split at h
    · rename_i hlen
      have hrun : code = cs.takeWhile Char.isDigit := by
        split at h
        · injection h with h
          exact h.symm
        · split at h
          · injection h with h
            exact h.symm
          · exact Option.noConfusion h
      subst hrun
      refine ⟨?_, hlen.1, hlen.2⟩
      rw [List.all_eq_true]
      intro x hx
      exact List.mem_takeWhile_imp hx
    · exact Option.noConfusion h
  · exact Option.noConfusion h

theorem scanFirst_some (f : Option Char → List Char → Option (List Char))
    (pre : Option Char) (l code : List Char) (h : scanFirst f pre l = some code) :
    ∃ pre2 l2, f pre2 l2 = some code := by
  induction l generalizing pre with
  | nil => cases h
  | cons c t ih =>
    simp only [scanFirst] at h
    cases hf : f pre (c :: t) with
    | some r =>
      rw [hf] at h
      injection h with h
      subst h
      exact ⟨pre, c :: t, hf⟩
    | none =>
      rw [hf] at h
      exact ih (some c) h

theorem pattern_capture_valid (p : Option Char → List Char → Option (List Char))
    (hp : p ∈ patternList) (pre : Option Char) (cs code : List Char)
    (h : p pre cs = some code) :
    code.all Char.isDigit = true ∧ 4 ≤ code.length ∧ code.length ≤ 8 := by
  simp only [patternList, List.mem_cons, List.mem_singleton, List.not_mem_nil,
    or_false] at hp
  rcases hp with rfl | rfl | rfl | rfl | rfl | rfl | rfl
  · exact tryP1_valid cs code h
  · exact tryP2_valid cs code h
  · exact tryP3_valid cs code h
  · exact tryP4_valid cs code h
  · exact tryP5_valid cs code h
  · exact tryP6_valid cs code h
  · exact tryP7_valid pre cs code h

theorem findCode_valid (ps : List (Option Char → List Char → Option (List Char)))
    (text code : List Char) (h : findCodeInPatterns ps text = some code) :
    code.all Char.isDigit = true ∧ 4 ≤ code.length ∧ code.length ≤ 8 := by
  induction ps with
  | nil => cases h
  | cons p ps ih =>
    simp only [findCodeInPatterns] at h
    cases hs : scanFirst p none text with
    | none =>
      rw [hs] at h
      exact ih h
    | some c =>
      rw [hs] at h
      simp only [] at h
      by_cases hv : c.all Char.isDigit = true ∧ 4 ≤ c.length ∧ c.length ≤ 8
      · rw [if_pos hv] at h
        injection h with h
        subst h
        exact hv
      · rw [if_neg hv] at h
        exact ih h

theorem findCode_complete (text : List Char) (h : matchesAnyPattern text = true) :
    (findCodeInPatterns patternList text).isSome = true := by
  suffices H : ∀ ps, (∀ p ∈ ps, p ∈ patternList) →
      (∃ p ∈ ps, (scanFirst p none text).isSome = true) →
      (findCodeInPatterns ps text).isSome = true by
    apply H patternList (fun p hp => hp)
    simpa [matchesAnyPattern, List.any_eq_true] using h
  intro ps
  induction ps with
  | nil =>
    intro _ hex
    rcases hex with ⟨p, hp, _⟩
    cases hp
  | cons p ps ih =>
    intro hsub hex
    simp only [findCodeInPatterns]
    cases hs : scanFirst p none text with
    | some c =>
      obtain ⟨pre2, l2, hf⟩ := scanFirst_some p none text c hs
      have hv := pattern_capture_valid p (hsub p (List.mem_cons_self p ps)) pre2 l2 c hf
      simp only []
      rw [if_pos hv]
      rfl
    | none =>
      simp only []
      apply ih (fun q hq => hsub q (List.mem_cons_of_mem p hq))
      rcases hex with ⟨q, hq, hqs⟩
      rcases List.mem_cons.mp hq with rfl | hq2
      · rw [hs] at hqs
        cases hqs
      · exact ⟨q, hq2, hqs⟩

theorem extract_valid (kw : List Char) (m : StoredMail) (r : CodeResult)
    (h : extract_code_from_mail kw m = some r) :
    r.code.all Char.isDigit = true ∧ 4 ≤ r.code.length ∧ r.code.length ≤ 8 := by
  unfold extract_code_from_mail at h
  split at h
  · cases hf : findCodeInPatterns patternList (searchText m) with
    | none =>
      rw [hf] at h
      cases h
    | some code =>
      rw [hf] at h
      injection h with h
      subst h
      exact findCode_valid patternList (searchText m) code hf
  · cases h

theorem extract_isSome (kw : List Char) (m : StoredMail)
    (hk : keywordFilterOk kw m = true)
    (hmat : matchesAnyPattern (searchText m) = true) :
    (extract_code_from_mail kw m).isSome = true := by
  unfold extract_code_from_mail
  rw [if_pos hk]
  have hc := findCode_complete (searchText m) hmat
  cases hf : findCodeInPatterns patternList (searchText m) with
  | none =>
    rw [hf] at hc
    cases hc
  | some code => rfl

theorem insertDesc_perm (m : StoredMail) (l : List StoredMail) :
    (insertDesc m l).Perm (m :: l) := by
  induction l with
  | nil => exact List.Perm.refl _
  | cons x xs ih =>
    unfold insertDesc
    split
    · exact List.Perm.refl _
    · exact (List.Perm.cons x ih).trans (List.Perm.swap m x xs)

theorem sortMailsDesc_perm (l : List StoredMail) : (sortMailsDesc l).Perm l := by
  induction l with
  | nil => exact List.Perm.refl _
  | cons m ms ih =>
    exact (insertDesc_perm m (sortMailsDesc ms)).trans (List.Perm.cons m ih)

theorem findSome?_isSome_of_exists {α β : Type} (f : α → Option β) (l : List α)
    (h : ∃ x ∈ l, (f x).isSome = true) : (l.findSome? f).isSome = true := by
  induction l with
  | nil =>
    rcases h with ⟨x, hx, _⟩
    cases hx
  | cons a as ih =>
    rw [List.findSome?_cons]
    cases hf : f a with
    | some b => rfl
    | none =>
      rcases h with ⟨x, hx, hxs⟩
      rcases List.mem_cons.mp hx with rfl | hx2
      · rw [hf] at hxs
        cases hxs
      · exact ih ⟨x, hx2, hxs⟩

/-! ### C3 -/

/-- C3: the initial scan of wait_for_code returns only pure-digit codes of
length four to eight - in particular never a code longer than eight digits
- and it returns a code whenever some stored message received within the
last 30 seconds passes the keyword filter and matches one of the seven
code patterns. -/
theorem C3_wait_for_code (ms : List StoredMail) (keyword : List Char) (now : Nat) :
    (∀ r, scan_recent_mails keyword now ms = some r →
      r.code.all Char.isDigit = true ∧ 4 ≤ r.code.length ∧ r.code.length ≤ 8) ∧
    ((∃ m ∈ ms, now ≤ m.received_time + 30 ∧ keywordFilterOk keyword m = true ∧
        matchesAnyPattern (searchText m) = true) →
      (scan_recent_mails keyword now ms).isSome = true) := by
  constructor
  · intro r h
    unfold scan_recent_mails at h
    obtain ⟨m, _, hf⟩ := List.exists_of_findSome?_eq_some h
    by_cases hw : now ≤ m.received_time + 30
    · rw [if_pos hw] at hf
      exact extract_valid keyword m r hf
    · rw [if_neg hw] at hf
      cases hf
  · rintro ⟨m, hm, hw, hk, hmat⟩
    unfold scan_recent_mails
    apply findSome?_isSome_of_exists
    refine ⟨m, ((sortMailsDesc_perm ms).mem_iff).mpr hm, ?_⟩
    rw [if_pos hw]
    exact extract_isSome keyword m hk hmat

/-- C3 witness: a message carrying code 482917 received 10 seconds ago is
found by the scan. -/
theorem C3_witness :
    (scan_recent_mails [] 110
      [{ mail_id := 0, email_id := 1, subject := (("Your code is 482917").data),
         sender := (("no-reply@site.com").data), content := [], received_time := 100,
         folder := (("INBOX").data), has_attachments := false }]).isSome = true :=
  (C3_wait_for_code _ _ _).2
    ⟨{ mail_id := 0, email_id := 1, subject := (("Your code is 482917").data),
       sender := (("no-reply@site.com").data), content := [], received_time := 100,
       folder := (("INBOX").data), has_attachments := false },
     List.mem_singleton_self _, by decide, by decide, by decide⟩
